import Mathlib

/-!
Verification of xrectsel (xrectsel.c): an interactive rectangular screen-region
selector with a template-based output formatter.

The development shallowly embeds the two core components of the C source:

* the template renderer: the helpers `ROUND` (macro, here `roundU` / `roundI`),
  `round_and_printu` / `round_and_printi` (rounding plus decimal formatting),
  `read_uint_until` (the rounding-clause parser) and `print_region_attr`
  (the format-string scanner); and
* the region selector `select_region`: the drag-state event loop over
  button-press, pointer-motion and button-release events, the feedback
  rectangle draws, and the final `Region` construction from the root geometry.

Machine-integer conventions of the C code that matter semantically are kept:
`unsigned int` values are natural numbers and the `int`/`unsigned int` mixed
arithmetic of `ROUND` is modelled with explicit two's-complement conversion at
width 32 (`toUnsigned` / `toSigned`), because C's usual arithmetic conversions
make `value / rounding` an unsigned division even when `value` is a signed
`int`.  Screen coordinates and dimensions (X11 protocol: 16-bit) are far below
the 32-bit overflow threshold, so the arithmetic building the final `Region`
is modelled over `Int`/`Nat` directly.

A C format string is NUL-terminated; the scanner of `print_region_attr` is
embedded over the character list `fmt ++ [nulChar]`, and exhausting the list
beyond that terminator models an out-of-range read of the underlying buffer
(result `ScanResult.oob`).
-/

namespace Xrectsel

/-- The NUL terminator byte of a C string. -/
def nulChar : Char := Char.ofNat 0

/-- Errors raised by `die` inside the template renderer:
`die("No matching %c found", stop_character)` and
`die("Unexpected character %c\n", c)` in `read_uint_until`. -/
inductive RenderErr where
  | noMatching (stop : Char)
  | unexpectedChar (c : Char)
deriving DecidableEq

/-- Embedding of `read_uint_until(const char** str_ptr, char stop_character)`.

The C function is entered with `*str_ptr` pointing at the opening `[`; its
loop pre-increments, so it examines exactly the characters after `[`.  The
input list holds those characters; the empty list stands for the position of
the NUL terminator (running past a terminator that is missing from the list
is also mapped to the `c == '\0'` branch, the only end-of-string detection the
C code has).  On success it returns the accumulated unsigned value (32-bit
wrap-around as in C) together with the characters after the closing `stop`
character (the caller does `++s` past the stop character). -/
def read_uint_until (stop : Char) : List Char → Nat → Except RenderErr (Nat × List Char)
  | [], _ => .error (.noMatching stop)
  | c :: rest, value =>
    if c = stop then .ok (value, rest)
    else if c = nulChar then .error (.noMatching stop)
    else if c < '0' ∨ '9' < c then .error (.unexpectedChar c)
    else read_uint_until stop rest
      (((if value ≠ 0 then value * 10 % 4294967296 else value) + (c.toNat - 48)) % 4294967296)

/-- Conversion of a C `int` to `unsigned int` (two's complement, width 32). -/
def toUnsigned (v : Int) : Nat := (v % 4294967296).toNat

/-- Conversion of a C `unsigned int` back to `int` (gcc: wrap-around). -/
def toSigned (n : Nat) : Int :=
  if n < 2147483648 then (n : Int) else (n : Int) - 4294967296

/-- The `ROUND(value, rounding)` macro specialised to `unsigned int value`
as used in `round_and_printu`:
`if (rounding > 0) value = (value / rounding) * rounding;`. -/
def roundU (value rounding : Nat) : Nat :=
  if rounding > 0 then value / rounding * rounding else value

/-- The `ROUND(value, rounding)` macro specialised to `int value` with
`unsigned int rounding` as used in `round_and_printi`.  By C's usual
arithmetic conversions `value / rounding` converts `value` to `unsigned int`,
divides and multiplies in unsigned arithmetic, and the assignment converts
the unsigned result back to `int`. -/
def roundI (value : Int) (rounding : Nat) : Int :=
  if rounding > 0 then toSigned (toUnsigned value / rounding * rounding % 4294967296)
  else value

/-- Decimal digit character for `n < 10`. -/
def digitChar (n : Nat) : Char := Char.ofNat (48 + n)

/-- Decimal digits of a natural number, most significant first.  The fuel
argument is a structural-recursion bound; `natDigits` supplies enough fuel
for any input. -/
def natDigitsAux : Nat → Nat → List Char → List Char
  | 0, _, acc => acc
  | fuel + 1, n, acc =>
    if n < 10 then digitChar n :: acc
    else natDigitsAux fuel (n / 10) (digitChar (n % 10) :: acc)

/-- Plain base-10 representation of a natural number, as printed by
`printf("%u", value)`. -/
def natDigits (n : Nat) : List Char := natDigitsAux (n + 1) n []

/-- Output of `printf("%i", value)`: a leading minus sign for negative
values, then the decimal digits. -/
def intChars (v : Int) : List Char :=
  if v < 0 then '-' :: natDigits v.natAbs else natDigits v.toNat

/-- Output of `printf("%u", value)`. -/
def uintChars (v : Nat) : List Char := natDigits v

/-- The `struct Region` of xrectsel.c.  The `Window root` field is omitted:
it is never read by the renderer and `select_region` never assigns it (it is
left uninitialised in the C code). -/
structure Region where
  x : Int
  y : Int
  X : Int
  Y : Int
  w : Nat
  h : Nat
  b : Nat
  d : Nat
deriving DecidableEq

/-- The `switch (*s)` field dispatch of `print_region_attr`, combined with
`round_and_printu` / `round_and_printi`: the characters printed for one
directive with selector `sel` and parsed rounding divisor `rounding`.
A selector matching no `case` prints nothing. -/
def emit (region : Region) (sel : Char) (rounding : Nat) : List Char :=
  if sel = '%' then ['%']
  else if sel = 'x' then intChars (roundI region.x rounding)
  else if sel = 'y' then intChars (roundI region.y rounding)
  else if sel = 'X' then intChars (roundI region.X rounding)
  else if sel = 'Y' then intChars (roundI region.Y rounding)
  else if sel = 'w' then uintChars (roundU region.w rounding)
  else if sel = 'h' then uintChars (roundU region.h rounding)
  else if sel = 'b' then uintChars (roundU region.b rounding)
  else if sel = 'd' then uintChars (roundU region.d rounding)
  else []

/-- Where the cursor of `print_region_attr`'s scan loop stands relative to a
directive: at the top of the `for` loop (`norm`), on the character right
after a `%` (`afterPct`), inside the `read_uint_until` loop of a `[...]`
rounding clause (`clause`, carrying the value accumulated so far), or on the
selector character right after a closing `]` (`sel`, carrying the parsed
rounding divisor). -/
inductive Mode where
  | norm
  | afterPct
  | clause (value : Nat)
  | sel (rounding : Nat)
deriving DecidableEq

/-- Result of running `print_region_attr`: normal return with the characters
written to standard output (`done`), termination by `die` with the output
already written when the error hit (`died`), or a read past the NUL
terminator of the format string, i.e. an out-of-range access of the
underlying buffer (`oob`, with the output written up to that point). -/
inductive ScanResult where
  | done (out : List Char)
  | died (out : List Char) (e : RenderErr)
  | oob (out : List Char)
deriving DecidableEq

/-- The scan loop of `print_region_attr` over the bytes of the format string
(the NUL terminator included in the list by the caller), one character per
step, with `Mode` recording the position inside a directive.  Exhausting the
list means the C scanner's `++s` moved past the NUL terminator and the next
`*s` dereference is out of range (`oob`). -/
def scanGo (region : Region) : List Char → Mode → List Char → ScanResult
  | [], _, out => .oob out
  | c :: rest, .norm, out =>
    if c = nulChar then .done out
    else if c = '%' then scanGo region rest .afterPct out
    else scanGo region rest .norm (out ++ [c])
  | c :: rest, .afterPct, out =>
    if c = '[' then scanGo region rest (.clause 0) out
    else scanGo region rest .norm (out ++ emit region c 0)
  | c :: rest, .clause value, out =>
    if c = ']' then scanGo region rest (.sel value) out
    else if c = nulChar then .died out (.noMatching ']')
    else if c < '0' ∨ '9' < c then .died out (.unexpectedChar c)
    else scanGo region rest
      (.clause (((if value ≠ 0 then value * 10 % 4294967296 else value) + (c.toNat - 48)) % 4294967296))
      out
  | c :: rest, .sel rounding, out =>
    scanGo region rest .norm (out ++ emit region c rounding)

/-- Embedding of `print_region_attr(const char *fmt, Region region)`: scan
the NUL-terminated format string `fmt ++ [nulChar]` from the start. -/
def print_region_attr (fmt : List Char) (region : Region) : ScanResult :=
  scanGo region (fmt ++ [nulChar]) .norm []

/-- A concrete region used to instantiate witnesses. -/
def sampleRegion : Region := ⟨10, 20, 1810, 1000, 100, 60, 0, 24⟩

example : print_region_attr ['%', 'w', 'x', '%', 'h'] sampleRegion
    = .done ['1', '0', '0', 'x', '6', '0'] := by decide

example : print_region_attr ['%', '[', '5', 'w'] sampleRegion
    = .died [] (.unexpectedChar 'w') := by decide

example : print_region_attr ['a', 'b', '%', '[', '5', 'w'] sampleRegion
    = .died ['a', 'b'] (.unexpectedChar 'w') := by decide

example : print_region_attr ['a', '%'] sampleRegion = .oob ['a'] := by decide

example : print_region_attr ['%', '%'] sampleRegion = .done ['%'] := by decide

example : roundI (-5) 10 = -6 := by decide

/-! ## The region selector -/

/-- The X events `select_region` dispatches on: `ButtonPress` and
`MotionNotify` carry the root-relative pointer position
(`ev.xbutton.x_root`, `ev.xbutton.y_root`); any other event type is
ignored by the loop. -/
inductive XEvent where
  | buttonPress (x_root y_root : Int)
  | motionNotify (x_root y_root : Int)
  | buttonRelease
  | other
deriving DecidableEq

/-- One `XDrawRectangle(dpy, root, sel_gc, x, y, width, height)` call:
the position and size of the rectangle drawn (GXinvert, so a second
identical draw erases the first). -/
structure Rect where
  x : Int
  y : Int
  w : Nat
  h : Nat
deriving DecidableEq

/-- The local mutable state of `select_region`'s event loop:
`btn_pressed`, the tracked rectangle `x, y, width, height`, and the drag
anchor `start_x, start_y`. -/
structure DragState where
  btn_pressed : Bool
  x : Int
  y : Int
  width : Nat
  height : Nat
  start_x : Int
  start_y : Int
deriving DecidableEq

/-- The rectangle currently tracked by the loop state (what the next
`XDrawRectangle(dpy, root, sel_gc, x, y, width, height)` would draw). -/
def rectOf (s : DragState) : Rect := ⟨s.x, s.y, s.width, s.height⟩

/-- The rectangle recomputation of the `MotionNotify` case, exactly as in
the C code: `x = ev.xbutton.x_root;` then
`if (x > start_x) { width = x - start_x; x = start_x; } else
{ width = start_x - x; }`, and likewise vertically. -/
def motionUpdate (s : DragState) (ex ey : Int) : DragState :=
  { s with
    x := if ex > s.start_x then s.start_x else ex,
    y := if ey > s.start_y then s.start_y else ey,
    width := if ex > s.start_x then (ex - s.start_x).toNat else (s.start_x - ex).toNat,
    height := if ey > s.start_y then (ey - s.start_y).toNat else (s.start_y - ey).toNat }

/-- One iteration of the `switch (ev.type)` dispatch: the updated state, the
`XDrawRectangle` calls issued during this event, and the `done` flag.

For `MotionNotify` with the button pressed the old rectangle is redrawn
(erasing it), the rectangle is recomputed from the anchor and the new
pointer position (`motionUpdate`), and the new rectangle is drawn. -/
def handleEvent (s : DragState) : XEvent → DragState × List Rect × Bool
  | .buttonPress ex ey =>
    (⟨true, ex, ey, 0, 0, ex, ey⟩, [], false)
  | .motionNotify ex ey =>
    if s.btn_pressed then
      (motionUpdate s ex ey, [rectOf s, rectOf (motionUpdate s ex ey)], false)
    else (s, [], false)
  | .buttonRelease => (s, [], true)
  | .other => (s, [], false)

/-- The `for (;;) { XNextEvent(dpy, &ev); ... if (done) break; }` loop over a
finite stream of delivered events: final state, all rectangles drawn, and
whether a `ButtonRelease` terminated the loop (if not, the C code would
still be blocking in `XNextEvent`). -/
def runLoop (s : DragState) : List XEvent → DragState × List Rect × Bool
  | [] => (s, [], false)
  | ev :: rest =>
    match handleEvent s ev with
    | (s1, ds, true) => (s1, ds, true)
    | (s1, ds, false) =>
      match runLoop s1 rest with
      | (s2, ds2, d2) => (s2, ds ++ ds2, d2)

/-- The out-parameters of `XGetGeometry` on the root window that the code
reads (`rr.x, rr.y, rr.w, rr.h, rr.b, rr.d`; the C code reuses `struct
Region` for them). -/
structure RootGeom where
  x : Int
  y : Int
  w : Nat
  h : Nat
  b : Nat
  d : Nat
deriving DecidableEq

/-- The failure modes of `select_region`: `XGrabPointer` did not return
`GrabSuccess` ("failed to grab pointer"), or `XGetGeometry` returned `False`
("failed to get root window geometry"). -/
inductive SelErr where
  | grabFailed
  | geometryFailed
deriving DecidableEq

/-- Embedding of `select_region(Display *dpy, Window root, Region *region)`.

`grabOk` is whether `XGrabPointer` returns `GrabSuccess`; `geomOk` is
whether `XGetGeometry` succeeds, with `rr` its out-parameters; `events` is
the stream delivered by `XNextEvent`.  The result is `none` when no
`ButtonRelease` arrives (the C code blocks forever); otherwise the list of
all `XDrawRectangle` calls issued (the loop's draws plus the final clearing
redraw) paired with the outcome: the constructed `Region` or the error.
On a failed grab the function returns before the loop with nothing drawn.

The final `Region` is built exactly as in the C code: `x, y, w, h` from the
loop state and the derived offsets `X = rr.w - x - w`, `Y = rr.h - y - h`
(the arithmetic fits well inside 32 bits for X11 geometry, so it is modelled
over `Int`), with `b, d` copied from the root geometry. -/
def select_region (grabOk geomOk : Bool) (rr : RootGeom) (events : List XEvent) :
    Option (List Rect × Except SelErr Region) :=
  if grabOk = false then some ([], .error .grabFailed)
  else
    match runLoop ⟨false, 0, 0, 0, 0, 0, 0⟩ events with
    | (_, _, false) => none
    | (s, draws, true) =>
      if geomOk = false then
        some (draws ++ [⟨s.x, s.y, s.width, s.height⟩], .error .geometryFailed)
      else some (draws ++ [⟨s.x, s.y, s.width, s.height⟩],
        .ok ⟨s.x, s.y, (rr.w : Int) - s.x - (s.width : Int),
             (rr.h : Int) - s.y - (s.height : Int), s.width, s.height, rr.b, rr.d⟩)

instance {ε α : Type} [DecidableEq ε] [DecidableEq α] : DecidableEq (Except ε α) := fun x y =>
  match x, y with
  | .error a, .error b =>
    if h : a = b then .isTrue (h ▸ rfl) else .isFalse (fun he => h (by injection he))
  | .ok a, .ok b =>
    if h : a = b then .isTrue (h ▸ rfl) else .isFalse (fun he => h (by injection he))
  | .error _, .ok _ => .isFalse (fun he => Except.noConfusion he)
  | .ok _, .error _ => .isFalse (fun he => Except.noConfusion he)

/-- Root geometry used in concrete witnesses: a 1920x1080 screen. -/
def sampleGeom : RootGeom := ⟨0, 0, 1920, 1080, 0, 24⟩

example :
    select_region true true sampleGeom
      [.buttonPress 10 20, .motionNotify 110 80, .buttonRelease]
    = some ([⟨10, 20, 0, 0⟩, ⟨10, 20, 100, 60⟩, ⟨10, 20, 100, 60⟩],
        .ok ⟨10, 20, 1810, 1000, 100, 60, 0, 24⟩) := by decide

example :
    select_region true true sampleGeom [.buttonPress 10 20, .buttonRelease]
    = some ([⟨10, 20, 0, 0⟩], .ok ⟨10, 20, 1910, 1060, 0, 0, 0, 24⟩) := by decide

example :
    select_region false true sampleGeom [.buttonPress 10 20, .buttonRelease]
    = some ([], .error .grabFailed) := by decide

/-! ## Helper lemmas -/

/-- Scanning a run of ordinary characters (no `%`, not the terminator)
copies them verbatim to the output and proceeds with the rest of the
string. -/
theorem scanGo_literal_run (region : Region) (pre : List Char)
    (h : ∀ c ∈ pre, c ≠ '%' ∧ c ≠ nulChar) :
    ∀ (rest out : List Char),
      scanGo region (pre ++ rest) .norm out = scanGo region rest .norm (out ++ pre) := by
  induction pre with
  | nil => intro rest out; simp
  | cons c cs ih =>
    intro rest out
    have hc := h c (List.mem_cons_self c cs)
    simp only [List.cons_append, scanGo, hc.1, hc.2, if_false, List.append_eq]
    rw [ih (fun d hd => h d (List.mem_cons_of_mem c hd)) rest (out ++ [c])]
    simp

/-- A character is a digit exactly when the scan guard
`c < '0' || c > '9'` of `read_uint_until` does not fire. -/
theorem read_uint_all_digits (cs : List Char) :
    (∀ c ∈ cs, ¬(c < '0' ∨ '9' < c)) →
    ∀ v : Nat, read_uint_until ']' cs v = .error (.noMatching ']') := by
  induction cs with
  | nil => intro _ v; rfl
  | cons c rest ih =>
    intro h v
    have hc := h c (List.mem_cons_self c rest)
    have hne : c ≠ ']' := fun he => hc (by rw [he]; decide)
    have hnul : c ≠ nulChar := fun he => hc (by rw [he]; decide)
    simp only [read_uint_until]
    rw [if_neg hne, if_neg hnul, if_neg hc]
    exact ih (fun d hdm => h d (List.mem_cons_of_mem c hdm)) _

/-- A non-digit other than the closing bracket (and other than the NUL
terminator) after a run of digits makes `read_uint_until` die with the
unexpected-character error naming that character. -/
theorem read_uint_bad_char (p : List Char) (c : Char) (rest : List Char)
    (hc : c < '0' ∨ '9' < c) (hne : c ≠ ']') (hnul : c ≠ nulChar) :
    (∀ d ∈ p, ¬(d < '0' ∨ '9' < d)) →
    ∀ v : Nat, read_uint_until ']' (p ++ c :: rest) v = .error (.unexpectedChar c) := by
  induction p with
  | nil =>
    intro _ v
    simp only [List.nil_append, read_uint_until]
    rw [if_neg hne, if_neg hnul, if_pos hc]
  | cons d p1 ih =>
    intro hp v
    have hd := hp d (List.mem_cons_self d p1)
    have hdne : d ≠ ']' := fun he => hd (by rw [he]; decide)
    have hdnul : d ≠ nulChar := fun he => hd (by rw [he]; decide)
    simp only [List.cons_append, read_uint_until]
    rw [if_neg hdne, if_neg hdnul, if_neg hd]
    exact ih (fun e hem => hp e (List.mem_cons_of_mem d hem)) _

/-- A rounding clause consisting of digits all the way to the end of the
format string makes the whole scan die with the unterminated-clause error:
the clause loop runs into the NUL terminator. -/
theorem scanGo_clause_all_digits (region : Region) (cs : List Char) :
    (∀ c ∈ cs, ¬(c < '0' ∨ '9' < c)) →
    ∀ (v : Nat) (out : List Char),
      scanGo region (cs ++ [nulChar]) (.clause v) out = .died out (.noMatching ']') := by
  induction cs with
  | nil => intro _ v out; rfl
  | cons c rest ih =>
    intro h v out
    have hc := h c (List.mem_cons_self c rest)
    have hne : c ≠ ']' := fun he => hc (by rw [he]; decide)
    have hnul : c ≠ nulChar := fun he => hc (by rw [he]; decide)
    simp only [List.cons_append, scanGo]
    rw [if_neg hne, if_neg hnul, if_neg hc]
    exact ih (fun d hdm => h d (List.mem_cons_of_mem c hdm)) _ _

/-- Occurrence count of a rectangle in a one-element draw list. -/
theorem count_one_rect (x y : Rect) : List.count x [y] = if x = y then 1 else 0 := by
  by_cases h : x = y <;> simp [h, List.count_cons]

/-- Parity of the feedback draws over a completed drag: starting from any
state with the button pressed, running any number of motions followed by
the button release, the loop's draws together with the final clearing
redraw contain every rectangle an even number of times — except the
rectangle tracked at the start (for a fresh press, the degenerate
zero-size rectangle at the press point), which is drawn an odd number of
times. -/
theorem runLoop_press_parity (ms : List (Int × Int)) :
    ∀ s : DragState, s.btn_pressed = true →
      ∃ (s1 : DragState) (ds : List Rect),
        runLoop s (ms.map (fun p => XEvent.motionNotify p.1 p.2) ++ [XEvent.buttonRelease])
          = (s1, ds, true) ∧
        ∀ r : Rect, (ds ++ [rectOf s1]).count r % 2 = if r = rectOf s then 1 else 0 := by
  induction ms with
  | nil =>
    intro s hb
    refine ⟨s, [], rfl, fun r => ?_⟩
    by_cases hr : r = rectOf s <;> simp [hr, List.count_cons]
  | cons p ps ih =>
    intro s hb
    obtain ⟨s2, ds2, hrun2, hcnt⟩ := ih (motionUpdate s p.1 p.2) hb
    refine ⟨s2, [rectOf s, rectOf (motionUpdate s p.1 p.2)] ++ ds2, ?_, ?_⟩
    · simp only [List.map_cons, List.cons_append, runLoop, handleEvent, hb, if_true,
        List.append_eq]
      rw [hrun2]
    · intro r
      have hx := hcnt r
      have hc2 : List.count r [rectOf s, rectOf (motionUpdate s p.1 p.2)]
          = (if r = rectOf s then 1 else 0)
            + (if r = rectOf (motionUpdate s p.1 p.2) then 1 else 0) := by
        rw [show ([rectOf s, rectOf (motionUpdate s p.1 p.2)] : List Rect)
              = [rectOf s] ++ [rectOf (motionUpdate s p.1 p.2)] from rfl,
            List.count_append, count_one_rect, count_one_rect]
      rw [List.append_assoc, List.count_append, hc2]
      split_ifs with h1 h2 h2
      · rw [if_pos h2] at hx; omega
      · rw [if_neg h2] at hx; omega
      · rw [if_pos h2] at hx; omega
      · rw [if_neg h2] at hx; omega

/-! ## Claims -/

/-- A region with `w = 47`, used to witness the rounding claim. -/
def sampleRegion47 : Region := ⟨10, 20, 30, 40, 47, 5, 1, 24⟩

/-- C1: whenever `select_region` completes a drag (any event sequence ending
in a button release) and returns a `Region`, the mirrored offsets satisfy
`X = rootWidth - x - w` and `Y = rootHeight - y - h`, where `rootWidth` and
`rootHeight` are the width and height reported by the `XGetGeometry` query on
the root window; `X` and `Y` are derived from `x, y, w, h` this way and are
never set independently. -/
theorem c1_derived_offsets (geomOk : Bool) (rr : RootGeom) (events : List XEvent)
    (draws : List Rect) (reg : Region)
    (h : select_region true geomOk rr events = some (draws, .ok reg)) :
    reg.X = (rr.w : Int) - reg.x - (reg.w : Int) ∧
    reg.Y = (rr.h : Int) - reg.y - (reg.h : Int) := by
  unfold select_region at h
  rw [if_neg (by decide : ¬(true = false))] at h
  rcases hrun : runLoop ⟨false, 0, 0, 0, 0, 0, 0⟩ events with ⟨s, ds, d⟩
  rw [hrun] at h
  cases d
  · simp at h
  · dsimp only at h
    by_cases hg : geomOk = false
    · rw [if_pos hg] at h
      simp at h
    · rw [if_neg hg] at h
      simp only [Option.some.injEq, Prod.mk.injEq, Except.ok.injEq] at h
      rw [← h.2]
      simp

/-- C1 witness: a concrete left-to-right drag on a 1920x1080 root. -/
theorem c1_witness :
    (⟨10, 20, 1810, 1000, 100, 60, 0, 24⟩ : Region).X
        = ((1920 : Nat) : Int) - 10 - ((100 : Nat) : Int) ∧
    (⟨10, 20, 1810, 1000, 100, 60, 0, 24⟩ : Region).Y
        = ((1080 : Nat) : Int) - 20 - ((60 : Nat) : Int) :=
  c1_derived_offsets true sampleGeom
    [.buttonPress 10 20, .motionNotify 110 80, .buttonRelease]
    [⟨10, 20, 0, 0⟩, ⟨10, 20, 100, 60⟩, ⟨10, 20, 100, 60⟩]
    ⟨10, 20, 1810, 1000, 100, 60, 0, 24⟩ rfl

/-- C2: after a pointer-motion event processed while dragging, the tracked
rectangle is the normalization of the anchor and the current pointer
position: its top-left corner is the component-wise minimum of the anchor
and pointer coordinates, its width and height are the (non-negative, the
type is `Nat`) absolute differences, and swapping the roles of the two
points — dragging up-left versus down-right between the same two points —
yields the same rectangle. -/
theorem c2_motion_normalized (s : DragState) (px py : Int) (hb : s.btn_pressed = true) :
    (((handleEvent s (.motionNotify px py)).1).x = min s.start_x px ∧
     ((handleEvent s (.motionNotify px py)).1).y = min s.start_y py ∧
     (((handleEvent s (.motionNotify px py)).1).width : Int) = (px - s.start_x).natAbs ∧
     (((handleEvent s (.motionNotify px py)).1).height : Int) = (py - s.start_y).natAbs) ∧
    (∀ t : DragState, t.btn_pressed = true → t.start_x = px → t.start_y = py →
      rectOf ((handleEvent t (.motionNotify s.start_x s.start_y)).1) =
        rectOf ((handleEvent s (.motionNotify px py)).1)) := by
  constructor
  · simp only [handleEvent, motionUpdate, hb, if_true]
    refine ⟨?_, ?_, ?_, ?_⟩
    · rw [min_def]; split_ifs <;> omega
    · rw [min_def]; split_ifs <;> omega
    · split_ifs <;> omega
    · split_ifs <;> omega
  · intro t htb htx hty
    subst htx
    subst hty
    simp only [handleEvent, motionUpdate, hb, htb, if_true, rectOf, Rect.mk.injEq]
    refine ⟨?_, ?_, ?_, ?_⟩ <;> split_ifs <;> omega

/-- C2 witness: an up-left drag from anchor (110, 80) to (10, 20) matches
the down-right drag from anchor (10, 20) to (110, 80). -/
theorem c2_witness :
    (((handleEvent ⟨true, 110, 80, 0, 0, 110, 80⟩ (.motionNotify 10 20)).1).x
        = min (110 : Int) 10 ∧
     ((handleEvent ⟨true, 110, 80, 0, 0, 110, 80⟩ (.motionNotify 10 20)).1).y
        = min (80 : Int) 20 ∧
     (((handleEvent ⟨true, 110, 80, 0, 0, 110, 80⟩ (.motionNotify 10 20)).1).width : Int)
        = ((10 : Int) - 110).natAbs ∧
     (((handleEvent ⟨true, 110, 80, 0, 0, 110, 80⟩ (.motionNotify 10 20)).1).height : Int)
        = ((20 : Int) - 80).natAbs) ∧
    (∀ t : DragState, t.btn_pressed = true → t.start_x = 10 → t.start_y = 20 →
      rectOf ((handleEvent t (.motionNotify 110 80)).1) =
        rectOf ((handleEvent ⟨true, 110, 80, 0, 0, 110, 80⟩ (.motionNotify 10 20)).1)) :=
  c2_motion_normalized ⟨true, 110, 80, 0, 0, 110, 80⟩ 10 20 rfl

/-- C5, counterexample: not every feedback draw is paired with an erase.
In the simplest completed drag — press at (10, 20), release with no motion —
the final clearing redraw draws the degenerate rectangle at the press point
exactly once: the net number of draws of that rectangle is odd, and one
inverted mark remains on the display. -/
theorem c5_counterexample :
    select_region true true sampleGeom [.buttonPress 10 20, .buttonRelease]
      = some ([⟨10, 20, 0, 0⟩], .ok ⟨10, 20, 1910, 1060, 0, 0, 0, 24⟩) ∧
    List.count (⟨10, 20, 0, 0⟩ : Rect) [⟨10, 20, 0, 0⟩] % 2 = 1 := by decide

/-- C5, amended: in a drag consisting of one button press, any pointer
motions, and a button release, every rectangle value is drawn an even
number of times — each motion's newly drawn rectangle is erased by the next
motion's redraw or by the final clearing redraw — except the degenerate
zero-size rectangle at the press position, which is drawn an odd number of
times (the first motion after a press redraws it "to clear it" although it
was never drawn, and with no motion at all the final redraw draws it once).
So exactly one unpaired draw remains per press. -/
theorem c5_amended_draw_parity (px py : Int) (ms : List (Int × Int))
    (geomOk : Bool) (rr : RootGeom) (draws : List Rect) (res : Except SelErr Region)
    (h : select_region true geomOk rr
          (XEvent.buttonPress px py ::
            (ms.map (fun p => XEvent.motionNotify p.1 p.2) ++ [XEvent.buttonRelease]))
        = some (draws, res)) :
    ∀ r : Rect, List.count r draws % 2 = if r = ⟨px, py, 0, 0⟩ then 1 else 0 := by
  obtain ⟨s1, ds, hrun, hcnt⟩ :=
    runLoop_press_parity ms ⟨true, px, py, 0, 0, px, py⟩ rfl
  have hrun0 : runLoop ⟨false, 0, 0, 0, 0, 0, 0⟩
      (XEvent.buttonPress px py ::
        (ms.map (fun p => XEvent.motionNotify p.1 p.2) ++ [XEvent.buttonRelease]))
      = (s1, ds, true) := by
    simp only [runLoop, handleEvent]
    rw [hrun]
    rfl
  unfold select_region at h
  rw [if_neg (by decide : ¬(true = false)), hrun0] at h
  dsimp only at h
  intro r
  by_cases hg : geomOk = false
  · rw [if_pos hg] at h
    simp only [Option.some.injEq, Prod.mk.injEq] at h
    rw [← h.1]
    exact hcnt r
  · rw [if_neg hg] at h
    simp only [Option.some.injEq, Prod.mk.injEq] at h
    rw [← h.1]
    exact hcnt r

/-- C5 witness: the drag press (10, 20), motion to (110, 80), release.  The
degenerate press rectangle is drawn once (odd), the real selection
rectangle twice (even). -/
theorem c5_witness :
    List.count (⟨10, 20, 0, 0⟩ : Rect)
        [⟨10, 20, 0, 0⟩, ⟨10, 20, 100, 60⟩, ⟨10, 20, 100, 60⟩] % 2
      = (if (⟨10, 20, 0, 0⟩ : Rect) = ⟨10, 20, 0, 0⟩ then 1 else 0) ∧
    List.count (⟨10, 20, 100, 60⟩ : Rect)
        [⟨10, 20, 0, 0⟩, ⟨10, 20, 100, 60⟩, ⟨10, 20, 100, 60⟩] % 2
      = (if (⟨10, 20, 100, 60⟩ : Rect) = ⟨10, 20, 0, 0⟩ then 1 else 0) :=
  ⟨c5_amended_draw_parity 10 20 [(110, 80)] true sampleGeom
      [⟨10, 20, 0, 0⟩, ⟨10, 20, 100, 60⟩, ⟨10, 20, 100, 60⟩]
      (.ok ⟨10, 20, 1810, 1000, 100, 60, 0, 24⟩) rfl ⟨10, 20, 0, 0⟩,
   c5_amended_draw_parity 10 20 [(110, 80)] true sampleGeom
      [⟨10, 20, 0, 0⟩, ⟨10, 20, 100, 60⟩, ⟨10, 20, 100, 60⟩]
      (.ok ⟨10, 20, 1810, 1000, 100, 60, 0, 24⟩) rfl ⟨10, 20, 100, 60⟩⟩

/-- C6: a malformed rounding clause kills the renderer.  A clause whose
content runs to the end of the format string while still well-formed (all
digits, no closing bracket) dies with the unterminated-clause error
`noMatching ']'`; a clause containing a non-digit character (other than the
closing bracket; the NUL terminator is the end-of-string case) after its
digit prefix dies with the invalid-digit error `unexpectedChar c` naming
the offending character; and the whole scan of `print_region_attr` aborts
with the error rather than continuing. -/
theorem c6_malformed_clause_errors (cs : List Char) (v : Nat) :
    ((∀ c ∈ cs, ¬(c < '0' ∨ '9' < c)) →
      read_uint_until ']' cs v = .error (.noMatching ']')) ∧
    (∀ (p : List Char) (c : Char) (rest : List Char), cs = p ++ c :: rest →
      (∀ d ∈ p, ¬(d < '0' ∨ '9' < d)) → (c < '0' ∨ '9' < c) → c ≠ ']' → c ≠ nulChar →
      read_uint_until ']' cs v = .error (.unexpectedChar c)) ∧
    ((∀ c ∈ cs, ¬(c < '0' ∨ '9' < c)) → ∀ region : Region,
      print_region_attr ('%' :: '[' :: cs) region = .died [] (.noMatching ']')) := by
  refine ⟨fun h => read_uint_all_digits cs h v,
    fun p c rest he hp hc hne hnul => ?_, fun h region => ?_⟩
  · rw [he]
    exact read_uint_bad_char p c rest hc hne hnul hp v
  · show scanGo region (('%' :: '[' :: cs) ++ [nulChar]) .norm [] = _
    rw [show (('%' :: '[' :: cs) ++ [nulChar] : List Char)
          = '%' :: '[' :: (cs ++ [nulChar]) from rfl]
    rw [show scanGo region ('%' :: '[' :: (cs ++ [nulChar])) .norm []
          = scanGo region (cs ++ [nulChar]) (.clause 0) [] from rfl]
    exact scanGo_clause_all_digits region cs h 0 []

/-- C6 witness: the unterminated clause `"%[57"` and the invalid digit in
`"%[5w9]"`. -/
theorem c6_witness :
    read_uint_until ']' ['5', '7'] 0 = .error (.noMatching ']') ∧
    read_uint_until ']' (['5'] ++ 'w' :: ['9']) 0 = .error (.unexpectedChar 'w') ∧
    print_region_attr ('%' :: '[' :: ['5', '7']) sampleRegion
      = .died [] (.noMatching ']') :=
  ⟨(c6_malformed_clause_errors ['5', '7'] 0).1 (by decide),
   (c6_malformed_clause_errors (['5'] ++ 'w' :: ['9']) 0).2.1 ['5'] 'w' ['9'] rfl
     (by decide) (by decide) (by decide) (by decide),
   (c6_malformed_clause_errors ['5', '7'] 0).2.2 (by decide) sampleRegion⟩

/-- C3, counterexample: for a signed field the rounding division is not the
truncating division matching the field's signedness.  C's usual arithmetic
conversions make `value / rounding` unsigned, so `ROUND(-5, 10)` yields `-6`
(via two's complement), while signed truncating division would give
`(-5 / 10) * 10 = 0`. -/
theorem c3_counterexample :
    roundI (-5) 10 = -6 ∧ Int.tdiv (-5) 10 * 10 = 0 ∧ ((-6 : Int) ≠ 0) := by decide

/-- C3, amended: with a positive divisor `r` an unsigned field value `v` is
rounded to `v / r * r` (truncating natural division), and a signed field
value is rounded the same way provided it is non-negative (and in `int`
range); the division is performed after conversion to unsigned 32-bit
arithmetic, so for negative signed values the result differs from signed
truncating division (see the counterexample).  With `r = 0` values are
unchanged, and rendering `"%[10]w"` against a region with `w = 47` prints
`"40"`. -/
theorem c3_rounding_amended :
    (∀ v r : Nat, 0 < r → roundU v r = v / r * r) ∧
    (∀ v : Nat, roundU v 0 = v) ∧
    (∀ v : Int, roundI v 0 = v) ∧
    (∀ (v : Int) (r : Nat), 0 < r → 0 ≤ v → v < 2147483648 →
      roundI v r = ((v.toNat / r * r : Nat) : Int)) ∧
    (∀ region : Region, region.w = 47 →
      print_region_attr ['%', '[', '1', '0', ']', 'w'] region = .done ['4', '0']) := by
  refine ⟨fun v r hr => by rw [roundU, if_pos hr], fun v => rfl, fun v => rfl, ?_, ?_⟩
  · intro v r hr h0 hlt
    have hu : toUnsigned v = v.toNat := by
      rw [toUnsigned, Int.emod_eq_of_lt h0 (by omega)]
    have hb : v.toNat / r * r ≤ v.toNat := Nat.div_mul_le_self v.toNat r
    rw [roundI, if_pos hr, hu, Nat.mod_eq_of_lt (by omega), toSigned, if_pos (by omega)]
  · intro region h47
    rw [show print_region_attr ['%', '[', '1', '0', ']', 'w'] region
          = .done (uintChars (roundU region.w 10)) from rfl, h47]
    rfl

/-- C3 witness: concrete instances of every conjunct of the amended claim. -/
theorem c3_witness :
    roundU 47 10 = 47 / 10 * 10 ∧ roundU 47 0 = 47 ∧ roundI (-5) 0 = -5 ∧
    roundI 40 10 = (((40 : Int).toNat / 10 * 10 : Nat) : Int) ∧
    print_region_attr ['%', '[', '1', '0', ']', 'w'] sampleRegion47 = .done ['4', '0'] :=
  ⟨c3_rounding_amended.1 47 10 (by decide), c3_rounding_amended.2.1 47,
   c3_rounding_amended.2.2.1 (-5),
   c3_rounding_amended.2.2.2.1 40 10 (by decide) (by decide) (by decide),
   c3_rounding_amended.2.2.2.2 sampleRegion47 rfl⟩

/-- C4, counterexample: rendering is not all-or-nothing.  The format string
`"ab%[5w"` hits the invalid-digit error, yet the two literal characters
scanned before the error have already been written to standard output (the
C library flushes the stdout buffer when `die` calls `exit`), so the error
case produces nonempty partial output. -/
theorem c4_counterexample :
    print_region_attr ['a', 'b', '%', '[', '5', 'w'] sampleRegion
      = .died ['a', 'b'] (.unexpectedChar 'w') ∧
    (['a', 'b'] : List Char) ≠ [] := by decide

/-- C4, amended: a template syntax error stops rendering at the error point;
whatever was emitted before the error remains on standard output, and
nothing is emitted at or after the error.  In particular `"%[5w"`, whose
error precedes any output, produces no output at all, for every region. -/
theorem c4_no_output_before_early_error (region : Region) :
    print_region_attr ['%', '[', '5', 'w'] region = .died [] (.unexpectedChar 'w') := rfl

/-- C7: a directive whose selector character is not one of
`{%, x, y, X, Y, w, h, b, d}` produces no output and is not an error: the
field dispatch falls through silently (`emit` yields nothing), and the
scanner consumes the selector and continues in ordinary scanning mode with
the rest of the format string — both when the selector follows a rounding
clause (`Mode.sel`) and when it directly follows `%` (`Mode.afterPct`, for
any selector that does not open a rounding clause). -/
theorem c7_unknown_selector_skipped (region : Region) (c : Char) (r : Nat)
    (rest out : List Char)
    (h : c ∉ ['%', 'x', 'y', 'X', 'Y', 'w', 'h', 'b', 'd']) :
    emit region c r = [] ∧
    scanGo region (c :: rest) (.sel r) out = scanGo region rest .norm out ∧
    (c ≠ '[' → scanGo region (c :: rest) .afterPct out = scanGo region rest .norm out) := by
  simp only [List.mem_cons, List.not_mem_nil, or_false, not_or] at h
  obtain ⟨h1, h2, h3, h4, h5, h6, h7, h8, h9⟩ := h
  have he : ∀ rr : Nat, emit region c rr = [] := fun rr => by
    simp [emit, h1, h2, h3, h4, h5, h6, h7, h8, h9]
  refine ⟨he r, ?_, fun h0 => ?_⟩
  · simp only [scanGo, he r, List.append_nil]
  · simp only [scanGo, h0, if_false, he 0, List.append_nil]

/-- C7 witness: the unknown selector `z` after a rounding clause. -/
theorem c7_witness :
    emit sampleRegion 'z' 3 = [] ∧
    scanGo sampleRegion ['z', 'h'] (.sel 3) [] = scanGo sampleRegion ['h'] .norm [] ∧
    ('z' ≠ '[' →
      scanGo sampleRegion ['z', 'h'] .afterPct [] = scanGo sampleRegion ['h'] .norm []) :=
  c7_unknown_selector_skipped sampleRegion 'z' 3 ['h'] [] (by decide)

/-- C8: if `XGrabPointer` does not return `GrabSuccess`, `select_region`
fails immediately with the grab error: for every event stream and geometry
the result is the `grabFailed` error with an empty draw list — the event
loop is never entered, nothing is drawn, and no `Region` is produced. -/
theorem c8_grab_failure_no_loop (geomOk : Bool) (rr : RootGeom) (events : List XEvent) :
    select_region false geomOk rr events = some ([], .error .grabFailed) := rfl

/-- C9: for a format string ending in an unescaped `%` — and likewise one
ending in a complete rounding clause such as `"%[5]"` — the scanner of
`print_region_attr` consumes the terminating NUL as the (empty) selector and
then advances past it, so its next top-of-loop read is out of range: the
`ScanResult.oob` branch of the total embedding is reached, with the literal
prefix as the output already produced. -/
theorem c9_scan_past_terminator (region : Region) (pre : List Char)
    (h : ∀ c ∈ pre, c ≠ '%' ∧ c ≠ nulChar) :
    print_region_attr (pre ++ ['%']) region = .oob pre ∧
    print_region_attr (pre ++ ['%', '[', '5', ']']) region = .oob pre := by
  constructor
  · show scanGo region ((pre ++ ['%']) ++ [nulChar]) .norm [] = .oob pre
    rw [List.append_assoc, scanGo_literal_run region pre h]
    simp +decide [scanGo, emit]
  · show scanGo region ((pre ++ ['%', '[', '5', ']']) ++ [nulChar]) .norm [] = .oob pre
    rw [List.append_assoc, scanGo_literal_run region pre h]
    simp +decide [scanGo, emit]

/-- C9 witness: the format strings `"a%"` and `"a%[5]"`. -/
theorem c9_witness :
    print_region_attr (['a'] ++ ['%']) sampleRegion = .oob ['a'] ∧
    print_region_attr (['a'] ++ ['%', '[', '5', ']']) sampleRegion = .oob ['a'] :=
  c9_scan_past_terminator sampleRegion ['a'] (by decide)

/-- C10: an empty rounding clause is accepted, parses the divisor `0`, and
rounds nothing: `read_uint_until` returns the value `0` when it sees the
closing bracket immediately, and for every field selector `f` rendering
`"%[]"` followed by `f` produces exactly the same result as rendering `"%"`
followed by `f`. -/
theorem c10_empty_clause_no_rounding (region : Region) (f : Char)
    (hf : f ∈ ['%', 'x', 'y', 'X', 'Y', 'w', 'h', 'b', 'd']) :
    read_uint_until ']' (']' :: [f]) 0 = .ok (0, [f]) ∧
    print_region_attr ['%', '[', ']', f] region = print_region_attr ['%', f] region := by
  refine ⟨rfl, ?_⟩
  fin_cases hf <;> rfl

/-- C10 witness: the field selector `w`. -/
theorem c10_witness :
    read_uint_until ']' (']' :: ['w']) 0 = .ok (0, ['w']) ∧
    print_region_attr ['%', '[', ']', 'w'] sampleRegion
      = print_region_attr ['%', 'w'] sampleRegion :=
  c10_empty_clause_no_rounding sampleRegion 'w' (by decide)

end Xrectsel
